import Mathlib

/-!
Verification of the WeddingUpload Flask application (src/app.py) against its
specification. The Python code is shallowly embedded: every function below is a
direct translation of the corresponding Python function; calls into libraries
(`ipaddress`, `magic`, PIL, `werkzeug`, the filesystem) are modelled either by
faithful Lean implementations of the library's documented behaviour
(`ipaddress` parsing and formatting, PIL's `thumbnail` fit computation) or by
explicit oracle fields recording the library call's outcome (MIME sniffing,
image verification, filesystem errors).
-/

/-! ## Python string primitives (`str.split`, `str.strip`, `str.lower`, ...) -/

/-- Python `s.split(c)` for a one-character separator: every occurrence splits,
`"".split(c) == [""]`. -/
def pySplit (sep : Char) (s : String) : List String :=
  (s.data.splitOn sep).map String.mk

/-- Python `s.strip()`: whitespace removed from both ends. -/
def pyStrip (s : String) : String :=
  String.mk (((s.data.dropWhile Char.isWhitespace).reverse.dropWhile
    Char.isWhitespace).reverse)

/-- Python `s.startswith(p)`. -/
def pyStartsWith (s p : String) : Bool :=
  p.data.isPrefixOf s.data

/-- Python `s.lower()` (ASCII case folding suffices for the strings the app
compares). -/
def pyLower (s : String) : String :=
  String.mk (s.data.map Char.toLower)

/-- Python `c in s` for a single character. -/
def pyContainsChar (s : String) (c : Char) : Bool :=
  s.data.contains c

/-- Python `s.replace(pat, "")` on character lists: every non-overlapping
occurrence of `pat` is removed, scanning left to right. The first argument
counts characters of a matched occurrence still to be skipped. -/
def pyRemoveAux (pat : List Char) : Nat → List Char → List Char
  | _, [] => []
  | skip + 1, _ :: rest => pyRemoveAux pat skip rest
  | 0, c :: rest =>
    if pat ≠ [] ∧ pat.isPrefixOf (c :: rest) = true then
      pyRemoveAux pat (pat.length - 1) rest
    else c :: pyRemoveAux pat 0 rest

/-- Python `s.replace(pat, "")`. -/
def pyRemove (s pat : String) : String :=
  String.mk (pyRemoveAux pat.data 0 s.data)

/-- Python `":".join(parts)`. -/
def joinColon : List String → String
  | [] => ""
  | [s] => s
  | s :: rest => s ++ ":" ++ joinColon rest

/-! ## Model of the Python standard library `ipaddress` module

`ipaddress.ip_address(s)` tries `IPv4Address(s)` first, then `IPv6Address(s)`,
and raises `ValueError` when both fail (modelled as `none`). Scoped IPv6
addresses (a `%zone` suffix) are not modelled; the application never receives
them from the headers it reads. -/

/-- A parsed IP address: four octets, or eight 16-bit groups. -/
inductive IPAddr where
  | v4 (octets : List Nat)
  | v6 (groups : List Nat)
deriving DecidableEq

/-- One dotted-quad octet: 1-3 ASCII digits, no leading zero (except `"0"`),
value at most 255. -/
def parseOctet (s : String) : Option Nat :=
  let l := s.data
  if l ≠ [] ∧ l.length ≤ 3 ∧ l.all Char.isDigit ∧
      (l.length = 1 ∨ l.head? ≠ some '0') then
    let v := l.foldl (fun a c => a * 10 + (c.toNat - 48)) 0
    if v ≤ 255 then some v else none
  else none

/-- `ipaddress.IPv4Address`: exactly four octets separated by dots. -/
def parseIPv4 (s : String) : Option (List Nat) :=
  let parts := pySplit '.' s
  if parts.length = 4 then parts.mapM parseOctet else none

/-- One IPv6 hextet: 1-4 hex digits. -/
def parseHextet (s : String) : Option Nat :=
  let l := s.data
  if l ≠ [] ∧ l.length ≤ 4 ∧ l.all (fun c =>
      c.isDigit ∨ ('a' ≤ c ∧ c ≤ 'f') ∨ ('A' ≤ c ∧ c ≤ 'F')) then
    some (l.foldl (fun a c =>
      a * 16 + (if c.isDigit then c.toNat - 48
                else if 'a' ≤ c then c.toNat - 87 else c.toNat - 55)) 0)
  else none

/-- Split a character list at the first occurrence of `"::"`. -/
def splitDoubleColon : List Char → Option (List Char × List Char)
  | [] => none
  | [_] => none
  | ':' :: ':' :: rest => some ([], rest)
  | c :: rest =>
    (splitDoubleColon rest).map (fun p => (c :: p.1, p.2))

/-- Parse a run of colon-separated IPv6 parts into 16-bit groups; an embedded
dotted-quad IPv4 address is accepted as the final part and contributes two
groups (as `ipaddress` does). -/
def parseV6Parts (parts : List String) : Option (List Nat) :=
  match parts.getLast? with
  | none => some []
  | some last =>
    if pyContainsChar last '.' then
      match parseIPv4 last with
      | some [a, b, c, d] => do
        let hs ← parts.dropLast.mapM parseHextet
        pure (hs ++ [a * 256 + b, c * 256 + d])
      | _ => none
    else parts.mapM parseHextet

/-- `ipaddress.IPv6Address`: either eight groups, or a single `"::"`
compressing at least one zero group. -/
def parseIPv6 (s : String) : Option (List Nat) :=
  match splitDoubleColon s.data with
  | some (l, r) =>
    let lp := if l = [] then [] else (l.splitOn ':').map String.mk
    let rp := if r = [] then [] else (r.splitOn ':').map String.mk
    do
      let lg ← lp.mapM parseHextet
      let rg ← parseV6Parts rp
      if lg.length + rg.length ≤ 7 then
        some (lg ++ List.replicate (8 - lg.length - rg.length) 0 ++ rg)
      else none
  | none =>
    do
      let g ← parseV6Parts ((s.data.splitOn ':').map String.mk)
      if g.length = 8 then some g else none

/-- `ipaddress.ip_address`: IPv4 first, then IPv6, else error (`none`). -/
def ip_address (s : String) : Option IPAddr :=
  match parseIPv4 s with
  | some o => some (.v4 o)
  | none =>
    match parseIPv6 s with
    | some g => some (.v6 g)
    | none => none

/-- One lowercase hex digit. -/
def hexDigitChar (k : Nat) : Char :=
  if k < 10 then Char.ofNat (48 + k) else Char.ofNat (87 + k)

/-- Lowercase hex digits of `n`, most significant first, no leading zeros;
structural recursion on a fuel bound so the kernel can evaluate it. -/
def toHexAux : Nat → Nat → List Char
  | 0, _ => []
  | fuel + 1, n =>
    if n < 16 then [hexDigitChar n]
    else toHexAux fuel (n / 16) ++ [hexDigitChar (n % 16)]

/-- Lowercase hex digits of `n`, most significant first, no leading zeros. -/
def toHexList (n : Nat) : List Char :=
  toHexAux (n + 1) n

/-- The first-longest run of zero groups: Python's `_compress_hextets` scan,
returning (start index, length). -/
def bestZeroRunAux : List Nat → Nat → Nat → Nat → Nat → Nat → Nat × Nat
  | [], _, _, _, bs, bl => (bs, bl)
  | x :: rest, i, cs, cl, bs, bl =>
    if x = 0 then
      let cs2 := if cl = 0 then i else cs
      let cl2 := cl + 1
      if cl2 > bl then bestZeroRunAux rest (i + 1) cs2 cl2 cs2 cl2
      else bestZeroRunAux rest (i + 1) cs2 cl2 bs bl
    else bestZeroRunAux rest (i + 1) cs 0 bs bl

/-- `IPv6Address.compressed`: lowercase hextets, the first-longest run of two
or more zero groups replaced by `"::"`. -/
def compressedV6 (groups : List Nat) : String :=
  let hextets := groups.map (fun g => String.mk (toHexList g))
  let best := bestZeroRunAux groups 0 0 0 0 0
  if best.2 > 1 then
    joinColon (hextets.take best.1) ++ "::" ++ joinColon (hextets.drop (best.1 + best.2))
  else joinColon hextets

/-! ## src/app.py: `get_real_client_ip` and its helpers -/

/-- `is_ipv6` (app.py line 47): parses and checks version 6; any exception
yields `False`. -/
def is_ipv6 (ip_str : String) : Bool :=
  match ip_address ip_str with
  | some (.v6 _) => true
  | _ => false

/-- `simplify_ipv6` (app.py line 55): an IPv6 address is shortened — the
string form `::ffff:a.b.c.d` has its prefix stripped, otherwise the compressed
form is returned; IPv4 input and parse failures return the input unchanged. -/
def simplify_ipv6 (ip_str : String) : String :=
  match ip_address ip_str with
  | some (.v6 g) =>
    if pyStartsWith ip_str "::ffff:" then pyRemove ip_str "::ffff:"
    else compressedV6 g
  | some (.v4 _) => ip_str
  | none => ip_str

/-- The entries of a comma-separated header value, each stripped
(app.py line 74). -/
def ipEntries (ip_list : String) : List String :=
  (pySplit ',' ip_list).map pyStrip

/-- The test of `extract_best_ip`'s first loop: `if ip and not is_ipv6(ip)`. -/
def keepNonIPv6 (ip : String) : Bool :=
  !(ip == "") && !(is_ipv6 ip)

/-- The test of `extract_best_ip`'s second loop: `if ip`. -/
def nonEmptyStr (ip : String) : Bool :=
  !(ip == "")

/-- First loop of `extract_best_ip` (app.py lines 77-79). -/
def firstPass : List String → Option String
  | [] => none
  | ip :: rest => if keepNonIPv6 ip then some ip else firstPass rest

/-- Second loop of `extract_best_ip` (app.py lines 82-84). -/
def secondPass : List String → Option String
  | [] => none
  | ip :: rest => if nonEmptyStr ip then some (simplify_ipv6 ip) else secondPass rest

/-- `extract_best_ip` (app.py line 69). -/
def extract_best_ip (ip_list : String) : String :=
  if ip_list = "" then "unknown"
  else
    let ips := ipEntries ip_list
    match firstPass ips with
    | some ip => ip
    | none =>
      match secondPass ips with
      | some r => r
      | none => "unknown"

/-- The header values and connection address a request carries. `""` stands
for an absent header (Python's `headers.get` returns `None`; `None` and `""`
take the same branch of every `if`). -/
structure RequestHeaders where
  cf_connecting_ipv6 : String
  cf_pseudo_ipv4 : String
  cf_connecting_ip : String
  x_forwarded_for : String
  x_real_ip : String
  remote_addr : String
deriving DecidableEq

/-- `get_real_client_ip` (app.py line 44). The `CF-Pseudo-IPv4` header and the
Class-E prefix test only choose log messages and do not affect the result. -/
def get_real_client_ip (h : RequestHeaders) : String :=
  if h.cf_connecting_ipv6 ≠ "" then simplify_ipv6 h.cf_connecting_ipv6
  else if h.cf_connecting_ip ≠ "" then extract_best_ip h.cf_connecting_ip
  else if h.x_forwarded_for ≠ "" then extract_best_ip h.x_forwarded_for
  else if h.x_real_ip ≠ "" then extract_best_ip h.x_real_ip
  else if h.remote_addr ≠ "" then simplify_ipv6 h.remote_addr
  else "unknown"

/-! ## The IP resolver as the specification words it

The spec describes the per-header list logic as "pick first IPv4 found, else
first entry simplified". `claimedListLogic` and `claimedResolver` follow those
words; `specExtractAmended` and `specResolverAmended` state the amended list
logic (first nonempty entry that is not IPv6, returned verbatim), to be proved
equal to the code. -/

/-- Whether `ipaddress` parses the string as an IPv4 address. -/
def is_ipv4 (ip_str : String) : Bool :=
  match ip_address ip_str with
  | some (.v4 _) => true
  | _ => false

/-- The list logic as the spec claims it: the first entry parsing as IPv4,
else the first nonempty entry simplified, else `"unknown"`. -/
def claimedListLogic (lst : String) : String :=
  match (ipEntries lst).find? is_ipv4 with
  | some ip => ip
  | none =>
    match (ipEntries lst).find? nonEmptyStr with
    | some ip => simplify_ipv6 ip
    | none => "unknown"

/-- The whole resolver as the spec claims it: five sources in priority order,
first present source wins, list logic per `claimedListLogic`. -/
def claimedResolver (h : RequestHeaders) : String :=
  if h.cf_connecting_ipv6 ≠ "" then simplify_ipv6 h.cf_connecting_ipv6
  else if h.cf_connecting_ip ≠ "" then claimedListLogic h.cf_connecting_ip
  else if h.x_forwarded_for ≠ "" then claimedListLogic h.x_forwarded_for
  else if h.x_real_ip ≠ "" then claimedListLogic h.x_real_ip
  else if h.remote_addr ≠ "" then simplify_ipv6 h.remote_addr
  else "unknown"

/-- The amended list logic: the first nonempty entry that does not parse as
IPv6 (returned verbatim, even if it parses as nothing at all), else the first
nonempty entry simplified, else `"unknown"`. -/
def specExtractAmended (lst : String) : String :=
  match (ipEntries lst).find? keepNonIPv6 with
  | some ip => ip
  | none =>
    match (ipEntries lst).find? nonEmptyStr with
    | some ip => simplify_ipv6 ip
    | none => "unknown"

/-- The amended resolver: priority order as claimed, list logic amended. -/
def specResolverAmended (h : RequestHeaders) : String :=
  if h.cf_connecting_ipv6 ≠ "" then simplify_ipv6 h.cf_connecting_ipv6
  else if h.cf_connecting_ip ≠ "" then specExtractAmended h.cf_connecting_ip
  else if h.x_forwarded_for ≠ "" then specExtractAmended h.x_forwarded_for
  else if h.x_real_ip ≠ "" then specExtractAmended h.x_real_ip
  else if h.remote_addr ≠ "" then simplify_ipv6 h.remote_addr
  else "unknown"

lemma firstPass_eq_find (l : List String) : firstPass l = l.find? keepNonIPv6 := by
  induction l with
  | nil => rfl
  | cons a t ih =>
    rw [List.find?_cons]
    cases h : keepNonIPv6 a <;> simp [firstPass, h, ih]

lemma secondPass_eq_find (l : List String) :
    secondPass l = (l.find? nonEmptyStr).map simplify_ipv6 := by
  induction l with
  | nil => rfl
  | cons a t ih =>
    rw [List.find?_cons]
    cases h : nonEmptyStr a <;> simp [secondPass, h, ih]

lemma extract_best_ip_eq_spec (s : String) :
    extract_best_ip s = specExtractAmended s := by
  by_cases hs : s = ""
  · subst hs; decide
  · unfold extract_best_ip specExtractAmended
    rw [if_neg hs]
    simp only [firstPass_eq_find, secondPass_eq_find]
    cases (ipEntries s).find? keepNonIPv6 <;>
      cases h2 : (ipEntries s).find? nonEmptyStr <;> simp [h2]

lemma find?_congr_of_agree {α : Type} {p q : α → Bool} (l : List α)
    (h : ∀ a ∈ l, p a = q a) : l.find? p = l.find? q := by
  induction l with
  | nil => rfl
  | cons a t ih =>
    rw [List.find?_cons, List.find?_cons, h a (by simp)]
    cases q a
    · exact ih (fun b hb => h b (by simp [hb]))
    · rfl

lemma is_ipv6_of_unparseable {e : String} (h : ip_address e = none) :
    is_ipv6 e = false := by
  simp [is_ipv6, h]

/-- C5: the claim's resolver ("first IPv4 in the comma-separated list") and
the code disagree: with only `X-Forwarded-For: garbage, 203.0.113.9` present,
the code returns the malformed first entry `"garbage"` (its first loop keeps
any nonempty entry that is not IPv6), while the claimed algorithm returns the
first IPv4 `"203.0.113.9"`. -/
theorem get_real_client_ip_counterexample :
    get_real_client_ip ⟨"", "", "", "garbage, 203.0.113.9", "", "10.0.0.1"⟩ = "garbage" ∧
    claimedResolver ⟨"", "", "", "garbage, 203.0.113.9", "", "10.0.0.1"⟩ = "203.0.113.9" := by
  exact ⟨by decide, by decide⟩

/-- C5 (amended): the resolver consults the sources in exactly the claimed
priority order, first present source winning, but the per-source list logic is
"first nonempty entry that does not parse as IPv6, returned verbatim; else
first nonempty entry simplified; else unknown". -/
theorem get_real_client_ip_amended (h : RequestHeaders) :
    get_real_client_ip h = specResolverAmended h := by
  unfold get_real_client_ip specResolverAmended
  simp only [extract_best_ip_eq_spec]

/-- C7: with `CF-Connecting-IP: not-an-ip` (all entries unparseable) and
`X-Forwarded-For: 198.51.100.7` present, the resolver returns the malformed
value `"not-an-ip"` instead of falling through to the next source (removing
the malformed header yields `"198.51.100.7"`). -/
theorem ip_fallthrough_counterexample :
    (ipEntries "not-an-ip").all (fun e => (ip_address e).isNone) = true ∧
    get_real_client_ip ⟨"", "", "not-an-ip", "198.51.100.7", "", "10.0.0.2"⟩ = "not-an-ip" ∧
    get_real_client_ip ⟨"", "", "", "198.51.100.7", "", "10.0.0.2"⟩ = "198.51.100.7" := by
  exact ⟨by decide, by decide, by decide⟩

/-- C7 (amended): the resolver is a total function (no exception escapes the
model), and a present higher-priority source always decides the result — a
source all of whose entries are malformed yields its first nonempty entry
verbatim (or `"unknown"` if every entry is empty), never a fall-through. -/
theorem ip_malformed_no_fallthrough (h : RequestHeaders) (s : String) :
    (h.cf_connecting_ipv6 = "" → h.cf_connecting_ip ≠ "" →
      get_real_client_ip h = extract_best_ip h.cf_connecting_ip)
    ∧ (s ≠ "" → (ipEntries s).all (fun e => (ip_address e).isNone) = true →
        extract_best_ip s = ((ipEntries s).find? nonEmptyStr).getD "unknown") := by
  constructor
  · intro h6 hip
    simp [get_real_client_ip, h6, hip]
  · intro hs hall
    have hagree : ∀ e ∈ ipEntries s, keepNonIPv6 e = nonEmptyStr e := by
      intro e he
      have : (ip_address e).isNone = true := by
        rw [List.all_eq_true] at hall
        exact hall e he
      have hnone : ip_address e = none := Option.isNone_iff_eq_none.mp this
      simp [keepNonIPv6, nonEmptyStr, is_ipv6_of_unparseable hnone]
    have hfc := find?_congr_of_agree (ipEntries s) hagree
    unfold extract_best_ip
    rw [if_neg hs]
    simp only [firstPass_eq_find, secondPass_eq_find, hfc]
    cases (ipEntries s).find? nonEmptyStr <;> simp

theorem ip_malformed_no_fallthrough_witness :
    get_real_client_ip ⟨"", "", "bogus", "198.51.100.7", "", ""⟩ = extract_best_ip "bogus" ∧
    extract_best_ip "bogus" = ((ipEntries "bogus").find? nonEmptyStr).getD "unknown" :=
  ⟨(ip_malformed_no_fallthrough ⟨"", "", "bogus", "198.51.100.7", "", ""⟩ "bogus").1
      rfl (by decide),
   (ip_malformed_no_fallthrough ⟨"", "", "bogus", "198.51.100.7", "", ""⟩ "bogus").2
      (by decide) (by decide)⟩

/-- C8: with only `X-Forwarded-For: 2001:db8::1, 203.0.113.9` present, the
resolver returns `203.0.113.9` — an IPv4 entry anywhere in the list is
preferred over an earlier IPv6 entry. -/
theorem xff_ipv4_preferred_over_earlier_ipv6 :
    get_real_client_ip ⟨"", "", "", "2001:db8::1, 203.0.113.9", "", "127.0.0.1"⟩ =
      "203.0.113.9" := by decide

/-! ## src/app.py: file-type configuration and the file validator -/

/-- `ALLOWED_EXTENSIONS` (app.py line 175). -/
def ALLOWED_EXTENSIONS : List String :=
  ["png", "jpg", "jpeg", "gif", "mp4", "mov", "avi", "mkv", "webm"]

/-- `ALLOWED_MIMETYPES` (app.py line 176). -/
def ALLOWED_MIMETYPES : List String :=
  ["image/png", "image/jpeg", "image/jpg", "image/gif",
   "video/mp4", "video/quicktime", "video/x-msvideo", "video/x-matroska",
   "video/webm"]

/-- `MAX_FILES_PER_REQUEST` (app.py line 184). -/
def MAX_FILES_PER_REQUEST : Nat := 10

/-- Python `filename.rsplit('.', 1)[1]`: the text after the last dot. The
`[1]` index exists only when the name contains a dot (otherwise Python raises
`IndexError`, modelled as `none`). -/
def extAfterLastDot (s : String) : Option String :=
  if s.data.contains '.' then
    some (String.mk ((s.data.reverse.takeWhile (fun c => c ≠ '.')).reverse))
  else none

/-- Python `filename.rsplit('.', 1)[0]`: the text before the last dot, or the
whole name when it has no dot. -/
def stemBeforeLastDot (s : String) : String :=
  if s.data.contains '.' then
    String.mk (((s.data.reverse.dropWhile (fun c => c ≠ '.')).tail).reverse)
  else s

/-- `allowed_file` (app.py line 203): the name contains a dot and its
lowercased last extension is in `ALLOWED_EXTENSIONS`. -/
def allowed_file (filename : String) : Bool :=
  filename.data.contains '.' &&
    (match extAfterLastDot filename with
     | some e => decide (pyLower e ∈ ALLOWED_EXTENSIONS)
     | none => false)

/-- `validate_file_content` (app.py line 214). The two library calls are
oracles: `sniff` is the outcome of `magic.from_file` (`Except.error` when it
raises), `verifyOk` whether `PIL.Image.open(...).verify()` succeeds without
an exception. Every exception is caught and yields `false`. -/
def validate_file_content (sniff : Except Unit String) (verifyOk : Bool) : Bool :=
  match sniff with
  | .error _ => false
  | .ok mime_type =>
    if mime_type ∈ ALLOWED_MIMETYPES then
      if pyStartsWith mime_type "image/" then verifyOk
      else if pyStartsWith mime_type "video/" then true
      else false
    else false

/-- `get_file_type` (app.py line 261). On a name without a dot the Python
lookup `rsplit('.', 1)[1]` raises `IndexError`, modelled as `none`. -/
def get_file_type (filename : String) : Option String :=
  match extAfterLastDot filename with
  | none => none
  | some e =>
    let extension := pyLower e
    if extension ∈ (["png", "jpg", "jpeg", "gif"] : List String) then some "image"
    else if extension ∈ (["mp4", "mov", "avi", "mkv", "webm"] : List String) then
      some "video"
    else some "unknown"

lemma allowed_mime_image_or_video (m : String) (hm : m ∈ ALLOWED_MIMETYPES) :
    pyStartsWith m "image/" = true ∨ pyStartsWith m "video/" = true := by
  fin_cases hm <;> decide

/-- C1: the validator passes exactly when the sniffed MIME type is allowed
and, for an image MIME type, the image decodes and verifies; video MIME types
pass on the MIME check alone; an exception anywhere (sniffing or decoding)
yields `false` rather than propagating. -/
theorem validate_file_content_spec (sniff : Except Unit String) (verifyOk : Bool) :
    validate_file_content sniff verifyOk = true ↔
      ∃ mime, sniff = Except.ok mime ∧ mime ∈ ALLOWED_MIMETYPES ∧
        (pyStartsWith mime "image/" = true → verifyOk = true) := by
  cases sniff with
  | error e => simp [validate_file_content]
  | ok m =>
    by_cases hmem : m ∈ ALLOWED_MIMETYPES
    · by_cases himg : pyStartsWith m "image/" = true
      · simp [validate_file_content, hmem, himg]
      · have hvid : pyStartsWith m "video/" = true := by
          rcases allowed_mime_image_or_video m hmem with h | h
          · exact absurd h himg
          · exact h
        simp [validate_file_content, hmem, himg, hvid]
    · simp [validate_file_content, hmem]

/-- C10: a name accepted by `allowed_file` contains a dot, so
`get_file_type`'s extension lookup is defined, and the result is `image` or
`video`, never `unknown`. -/
theorem allowed_file_get_file_type (f : String) (h : allowed_file f = true) :
    ∃ t, get_file_type f = some t ∧ (t = "image" ∨ t = "video") := by
  unfold allowed_file at h
  rw [Bool.and_eq_true] at h
  obtain ⟨hdot, hext⟩ := h
  cases he : extAfterLastDot f with
  | none =>
    unfold extAfterLastDot at he
    rw [if_pos hdot] at he
    exact Option.noConfusion he
  | some e =>
    rw [he] at hext
    have hm : pyLower e ∈ ALLOWED_EXTENSIONS := of_decide_eq_true hext
    simp only [get_file_type, he]
    simp only [ALLOWED_EXTENSIONS, List.mem_cons, List.not_mem_nil, or_false] at hm
    rcases hm with h9 | h9 | h9 | h9 | h9 | h9 | h9 | h9 | h9 <;>
      rw [h9] <;> exact ⟨_, rfl, by decide⟩

theorem allowed_file_get_file_type_witness :
    ∃ t, get_file_type "wedding.png" = some t ∧ (t = "image" ∨ t = "video") :=
  allowed_file_get_file_type "wedding.png" (by decide)

/-! ## src/app.py: `upload_files` (the upload handler)

Each `UploadEntry` carries the request data for one file plus oracles for the
library/filesystem outcomes of processing it: `sanitized` is
`werkzeug.secure_filename(filename)`, `uuidHex` the `uuid4().hex` drawn for
it, `saveRaises`/`partialWritten` whether `file.save` raised and whether it
left a partial file, `sniff`/`imgVerifyOk` the validator oracles,
`hashRaises` whether `get_file_hash` raised, `thumbOk` whether
`create_thumbnail` returned `True`. The stores are the `uploads/` and
`thumbnails/` directories as lists of file names, and the counters are the
handler's `uploaded_count`/`failed_count`. -/

instance {ε α : Type} [DecidableEq ε] [DecidableEq α] : DecidableEq (Except ε α) := fun a b =>
  match a, b with
  | .error x, .error y =>
    if h : x = y then isTrue (by rw [h]) else isFalse (by intro hh; injection hh; contradiction)
  | .error _, .ok _ => isFalse (by intro hh; exact Except.noConfusion hh)
  | .ok _, .error _ => isFalse (by intro hh; exact Except.noConfusion hh)
  | .ok x, .ok y =>
    if h : x = y then isTrue (by rw [h]) else isFalse (by intro hh; injection hh; contradiction)

structure UploadEntry where
  filename : String
  sanitized : String
  uuidHex : String
  saveRaises : Bool
  partialWritten : Bool
  sniff : Except Unit String
  imgVerifyOk : Bool
  hashRaises : Bool
  thumbOk : Bool
deriving DecidableEq

structure UploadState where
  uploaded : Nat
  failed : Nat
  store : List String
  thumbs : List String
deriving DecidableEq

/-- The unique stored name (app.py line 377): `f"{uuid4().hex}_{original}"`. -/
def storedName (e : UploadEntry) : String :=
  e.uuidHex ++ "_" ++ e.sanitized

/-- The thumbnail name (app.py line 397): `f"thumb_{name.rsplit('.', 1)[0]}.jpg"`. -/
def thumbnailName (name : String) : String :=
  "thumb_" ++ stemBeforeLastDot name ++ ".jpg"

/-- Writing a file: overwrites a file of the same name, otherwise appends. -/
def fsSave (store : List String) (name : String) : List String :=
  if store.contains name then store else store ++ [name]

/-- `os.remove`: the file of that name disappears. -/
def fsRemove (store : List String) (name : String) : List String :=
  store.filter (fun f => !(f == name))

/-- `upload_files`' per-file body (app.py lines 361-411), including the
`except` handler: any exception after the save removes the partial file. -/
def processFile (st : UploadState) (e : UploadEntry) : UploadState :=
  if e.filename = "" then st
  else if e.sanitized = "" then { st with failed := st.failed + 1 }
  else if allowed_file e.sanitized = false then { st with failed := st.failed + 1 }
  else
    let name := storedName e
    if e.saveRaises then
      let store1 := if e.partialWritten then fsSave st.store name else st.store
      let store2 := if store1.contains name then fsRemove store1 name else store1
      { st with store := store2, failed := st.failed + 1 }
    else
      let store1 := fsSave st.store name
      if validate_file_content e.sniff e.imgVerifyOk = false then
        { st with store := fsRemove store1 name, failed := st.failed + 1 }
      else if e.hashRaises then
        let store2 := if store1.contains name then fsRemove store1 name else store1
        { st with store := store2, failed := st.failed + 1 }
      else
        match get_file_type name with
        | none =>
          let store2 := if store1.contains name then fsRemove store1 name else store1
          { st with store := store2, failed := st.failed + 1 }
        | some t =>
          let thumbs1 :=
            if t = "image" then
              if e.thumbOk then fsSave st.thumbs (thumbnailName name) else st.thumbs
            else st.thumbs
          { st with store := store1, thumbs := thumbs1, uploaded := st.uploaded + 1 }

/-- `upload_files` (app.py line 336): reject when the form has no `files`
field or more than `MAX_FILES_PER_REQUEST` entries, else process each file in
order. -/
def upload_files (hasFilesField : Bool) (files : List UploadEntry)
    (st : UploadState) : UploadState :=
  if hasFilesField = false then st
  else if files.length > MAX_FILES_PER_REQUEST then st
  else files.foldl processFile st

/-- All the conditions under which an entry reaches `uploaded_count += 1`. -/
def entrySucceeds (e : UploadEntry) : Bool :=
  !(e.filename == "") && !(e.sanitized == "") && allowed_file e.sanitized &&
  !e.saveRaises && validate_file_content e.sniff e.imgVerifyOk &&
  !e.hashRaises && (get_file_type (storedName e)).isSome

lemma contains_eq_false_of_not_mem {l : List String} {a : String} (h : a ∉ l) :
    l.contains a = false := by
  simp [h]

lemma fsSave_fresh {store : List String} {name : String} (h : name ∉ store) :
    fsSave store name = store ++ [name] := by
  simp [fsSave, h]

lemma contains_fsSave_self (store : List String) (name : String) :
    (fsSave store name).contains name = true := by
  unfold fsSave
  split
  next h => exact h
  next h => simp

lemma fsRemove_not_mem {store : List String} {name : String} (h : name ∉ store) :
    fsRemove store name = store := by
  rw [fsRemove, List.filter_eq_self]
  intro a ha
  have hc : a ≠ name := fun hc => h (hc ▸ ha)
  simp [hc]

lemma fsRemove_fsSave_fresh {store : List String} {name : String} (h : name ∉ store) :
    fsRemove (fsSave store name) name = store := by
  unfold fsRemove
  rw [fsSave_fresh h, List.filter_append]
  have h1 := fsRemove_not_mem h
  unfold fsRemove at h1
  rw [h1]
  simp

lemma processFile_fail_eq (st : UploadState) (e : UploadEntry)
    (hname : e.filename ≠ "") (hfresh : storedName e ∉ st.store)
    (hfail : entrySucceeds e = false) :
    processFile st e = { st with failed := st.failed + 1 } := by
  by_cases hs : e.sanitized = ""
  · simp [processFile, hname, hs]
  · by_cases hal : allowed_file e.sanitized = true
    · by_cases hsr : e.saveRaises = true
      · by_cases hpw : e.partialWritten = true
        · simp [processFile, hname, hs, hal, hsr, hpw, contains_fsSave_self,
            fsRemove_fsSave_fresh hfresh]
          intro hc
          exact absurd (by simp [fsSave_fresh hfresh]) hc
        · simp [processFile, hname, hs, hal, hsr, hpw, hfresh,
            fsRemove_not_mem hfresh]
      · by_cases hv : validate_file_content e.sniff e.imgVerifyOk = true
        · by_cases hhr : e.hashRaises = true
          · simp [processFile, hname, hs, hal, hsr, hv, hhr, contains_fsSave_self,
              fsRemove_fsSave_fresh hfresh]
            intro hc
            exact absurd (by simp [fsSave_fresh hfresh]) hc
          · cases hgf : get_file_type (storedName e) with
            | none =>
              simp [processFile, hname, hs, hal, hsr, hv, hhr, hgf,
                contains_fsSave_self, fsRemove_fsSave_fresh hfresh]
              intro hc
              exact absurd (by simp [fsSave_fresh hfresh]) hc
            | some t =>
              exfalso
              have hok : entrySucceeds e = true := by
                simp [entrySucceeds, hname, hs, hal, hsr, hv, hhr, hgf]
              rw [hok] at hfail
              exact Bool.noConfusion hfail
        · have hv2 : validate_file_content e.sniff e.imgVerifyOk = false := by
            revert hv; cases validate_file_content e.sniff e.imgVerifyOk <;> simp
          simp [processFile, hname, hs, hal, hsr, hv2, fsRemove_fsSave_fresh hfresh]
    · have hal2 : allowed_file e.sanitized = false := by
        revert hal; cases allowed_file e.sanitized <;> simp
      simp [processFile, hname, hs, hal2]

/-- C2: a file whose sanitized name has a missing or disallowed extension is
counted as failed and nothing is written to the store (the save step is never
reached; the state is unchanged apart from the failure counter). -/
theorem upload_disallowed_extension_rejected (st : UploadState) (e : UploadEntry)
    (hname : e.filename ≠ "") (hext : allowed_file e.sanitized = false) :
    processFile st e = { st with failed := st.failed + 1 } := by
  by_cases hs : e.sanitized = ""
  · simp [processFile, hname, hs]
  · simp [processFile, hname, hs, hext]

theorem upload_disallowed_extension_rejected_witness :
    processFile ⟨0, 0, [], []⟩
      ⟨"notes.txt", "notes.txt", "u0", false, false, Except.ok "text/plain",
        true, false, true⟩ = ⟨0, 1, [], []⟩ :=
  upload_disallowed_extension_rejected _ _ (by decide) (by decide)

/-- C3: a request with more than 10 files is rejected whole — the store and
both counters are untouched and no file is processed. -/
theorem upload_too_many_files_rejected (files : List UploadEntry) (st : UploadState)
    (h : files.length > 10) :
    upload_files true files st = st := by
  simp [upload_files, MAX_FILES_PER_REQUEST, h]

theorem upload_too_many_files_rejected_witness :
    upload_files true
      (List.replicate 11
        ⟨"a.png", "a.png", "u1", false, false, Except.ok "image/png",
          true, false, true⟩) ⟨0, 0, [], []⟩ = ⟨0, 0, [], []⟩ :=
  upload_too_many_files_rejected _ _ (by decide)

/-- C4: a per-file failure (validation failure or a processing exception)
leaves the store as it was — any partial artifact is removed — increments the
failure counter, leaves no file for the failed entry in the store, and the
batch continues with the remaining files. The freshness hypothesis is the
collision-freeness the random `uuid4` prefix provides. -/
theorem upload_failed_entry_isolated (st : UploadState) (e : UploadEntry)
    (rest : List UploadEntry)
    (hname : e.filename ≠ "") (hfresh : storedName e ∉ st.store)
    (hfail : entrySucceeds e = false) :
    processFile st e = { st with failed := st.failed + 1 }
    ∧ storedName e ∉ (processFile st e).store
    ∧ (e :: rest).foldl processFile st = rest.foldl processFile (processFile st e) := by
  have h1 := processFile_fail_eq st e hname hfresh hfail
  refine ⟨h1, ?_, rfl⟩
  rw [h1]
  exact hfresh

theorem upload_failed_entry_isolated_witness :
    processFile ⟨0, 0, ["x.png"], []⟩
      ⟨"cat.png", "cat.png", "abc123", false, false, Except.ok "text/plain",
        true, false, true⟩ = ⟨0, 1, ["x.png"], []⟩
    ∧ storedName
        ⟨"cat.png", "cat.png", "abc123", false, false, Except.ok "text/plain",
          true, false, true⟩ ∉
        (processFile ⟨0, 0, ["x.png"], []⟩
          ⟨"cat.png", "cat.png", "abc123", false, false, Except.ok "text/plain",
            true, false, true⟩).store :=
  ⟨(upload_failed_entry_isolated ⟨0, 0, ["x.png"], []⟩
      ⟨"cat.png", "cat.png", "abc123", false, false, Except.ok "text/plain",
        true, false, true⟩ [] (by decide) (by decide) (by decide)).1,
   (upload_failed_entry_isolated ⟨0, 0, ["x.png"], []⟩
      ⟨"cat.png", "cat.png", "abc123", false, false, Except.ok "text/plain",
        true, false, true⟩ [] (by decide) (by decide) (by decide)).2.1⟩

/-! ## src/app.py: `create_thumbnail`

PIL's `Image.thumbnail((300, 300), LANCZOS)` fit computation is modelled with
exact rational arithmetic (comparisons cross-multiplied): it shrinks the image
so it fits in the box, rounding the free dimension to whichever of floor/ceil
best preserves the aspect ratio (floor on ties, at least 1), and leaves images
already inside the box unchanged. The image decode and the JPEG encode are
oracles (`opened`, `saveRaises`); the output record holds everything the code
passes to PIL: the canvas, the paste offsets, the resized dimensions and the
save parameters. -/

structure PILImage where
  mode : String
  width : Nat
  height : Nat
deriving DecidableEq

/-- `THUMBNAIL_SIZE` (app.py line 188). -/
def THUMBNAIL_SIZE : Nat × Nat := (300, 300)

/-- PIL `thumbnail`, portrait branch (`x / y >= aspect`): the new width is
`round_aspect(ty * w / h)` with key `|aspect - n / ty|`, at least 1. -/
def pil_fit_x (w h ty : Nat) : Nat :=
  let flo := ty * w / h
  let ce := (ty * w + h - 1) / h
  let keyFlo := ((w * ty : Int) - flo * h).natAbs
  let keyCe := ((w * ty : Int) - ce * h).natAbs
  max (if keyFlo ≤ keyCe then flo else ce) 1

/-- PIL `thumbnail`, landscape branch: the new height is
`round_aspect(tx / aspect)` with key `0 if n == 0 else |aspect - tx / n|`,
at least 1. -/
def pil_fit_y (w h tx : Nat) : Nat :=
  let flo := tx * h / w
  let ce := (tx * h + w - 1) / w
  let keyFlo := ((w * flo : Int) - tx * h).natAbs * ce
  let keyCe := ((w * ce : Int) - tx * h).natAbs * flo
  max (if flo = 0 then flo else if keyFlo ≤ keyCe then flo else ce) 1

/-- PIL `Image.thumbnail` size computation: unchanged when the image already
fits the `(tx, ty)` box, else shrink preserving aspect ratio. -/
def pil_thumbnail_fit (w h tx ty : Nat) : Nat × Nat :=
  if tx ≥ w ∧ ty ≥ h then (w, h)
  else if tx * h ≥ w * ty then (pil_fit_x w h ty, ty)
  else (tx, pil_fit_y w h tx)

/-- The mode normalisation of `create_thumbnail` (app.py lines 273-281):
transparency and palette modes are composited onto white, anything that is
not `RGB`/`L` is converted; the pixel size never changes. -/
def flattenMode (img : PILImage) : PILImage :=
  if img.mode = "RGBA" ∨ img.mode = "LA" ∨ img.mode = "P" then
    { img with mode := "RGB" }
  else if img.mode = "RGB" ∨ img.mode = "L" then img
  else { img with mode := "RGB" }

/-- Everything `create_thumbnail` hands to PIL for the saved thumbnail. -/
structure ThumbnailOutput where
  canvasMode : String
  canvasWidth : Nat
  canvasHeight : Nat
  background : Nat × Nat × Nat
  pasteX : Int
  pasteY : Int
  pastedWidth : Nat
  pastedHeight : Nat
  pastedMode : String
  format : String
  quality : Nat
  optimize : Bool
deriving DecidableEq

/-- `create_thumbnail` (app.py line 269): `none` models `return False` (an
exception while opening or saving); the offsets are Python's floor division
`(300 - size) // 2`. -/
def create_thumbnail (opened : Option PILImage) (saveRaises : Bool) :
    Option ThumbnailOutput :=
  match opened with
  | none => none
  | some img0 =>
    let img1 := flattenMode img0
    let fit := pil_thumbnail_fit img1.width img1.height THUMBNAIL_SIZE.1 THUMBNAIL_SIZE.2
    if saveRaises then none
    else
      some {
        canvasMode := "RGB"
        canvasWidth := THUMBNAIL_SIZE.1
        canvasHeight := THUMBNAIL_SIZE.2
        background := (255, 255, 255)
        pasteX := ((THUMBNAIL_SIZE.1 : Int) - fit.1).fdiv 2
        pasteY := ((THUMBNAIL_SIZE.2 : Int) - fit.2).fdiv 2
        pastedWidth := fit.1
        pastedHeight := fit.2
        pastedMode := img1.mode
        format := "JPEG"
        quality := 85
        optimize := true }

lemma pil_fit_x_le (w h : Nat) (hh : 0 < h) (hw : w ≤ h) : pil_fit_x w h 300 ≤ 300 := by
  have hmul : 300 * w ≤ 300 * h := Nat.mul_le_mul_left 300 hw
  have hflo : 300 * w / h < 301 := (Nat.div_lt_iff_lt_mul hh).mpr (by omega)
  have hce : (300 * w + h - 1) / h < 301 := (Nat.div_lt_iff_lt_mul hh).mpr (by omega)
  simp only [pil_fit_x]
  split <;> omega

lemma pil_fit_y_le (w h : Nat) (hw : 0 < w) (hh : h ≤ w) : pil_fit_y w h 300 ≤ 300 := by
  have hmul : 300 * h ≤ 300 * w := Nat.mul_le_mul_left 300 hh
  have hflo : 300 * h / w < 301 := (Nat.div_lt_iff_lt_mul hw).mpr (by omega)
  have hce : (300 * h + w - 1) / w < 301 := (Nat.div_lt_iff_lt_mul hw).mpr (by omega)
  simp only [pil_fit_y]
  split <;> [omega; (split <;> omega)]

lemma pil_thumbnail_fit_le (w h : Nat) (hw : 0 < w) (hh : 0 < h) :
    (pil_thumbnail_fit w h 300 300).1 ≤ 300 ∧ (pil_thumbnail_fit w h 300 300).2 ≤ 300 := by
  unfold pil_thumbnail_fit
  by_cases h1 : 300 ≥ w ∧ 300 ≥ h
  · rw [if_pos h1]
    exact ⟨h1.1, h1.2⟩
  · rw [if_neg h1]
    by_cases h2 : 300 * h ≥ w * 300
    · rw [if_pos h2]
      have hwh : w ≤ h := by omega
      exact ⟨pil_fit_x_le w h hh hwh, le_refl 300⟩
    · rw [if_neg h2]
      have hhw : h ≤ w := by omega
      exact ⟨le_refl 300, pil_fit_y_le w h hw hhw⟩

lemma flattenMode_dims (img : PILImage) :
    (flattenMode img).width = img.width ∧ (flattenMode img).height = img.height := by
  unfold flattenMode
  split
  · exact ⟨rfl, rfl⟩
  · split
    · exact ⟨rfl, rfl⟩
    · exact ⟨rfl, rfl⟩

/-- C6: a successful thumbnail is a 300×300 JPEG at quality 85 (optimised) on
an opaque white RGB canvas; the source is resized by PIL's aspect-preserving
fit so neither dimension exceeds 300, and pasted centred at offsets
`(300 - w) // 2` and `(300 - h) // 2`. -/
theorem create_thumbnail_spec (img : PILImage) (sr : Bool) (out : ThumbnailOutput)
    (hw : 0 < img.width) (hh : 0 < img.height)
    (hres : create_thumbnail (some img) sr = some out) :
    out.canvasWidth = 300 ∧ out.canvasHeight = 300 ∧ out.canvasMode = "RGB" ∧
    out.background = (255, 255, 255) ∧ out.format = "JPEG" ∧ out.quality = 85 ∧
    out.optimize = true ∧
    (out.pastedWidth, out.pastedHeight) = pil_thumbnail_fit img.width img.height 300 300 ∧
    out.pastedWidth ≤ 300 ∧ out.pastedHeight ≤ 300 ∧
    out.pasteX = ((300 : Int) - out.pastedWidth).fdiv 2 ∧
    out.pasteY = ((300 : Int) - out.pastedHeight).fdiv 2 := by
  obtain ⟨hdw, hdh⟩ := flattenMode_dims img
  have hb := pil_thumbnail_fit_le img.width img.height hw hh
  by_cases hsr : sr = true
  · rw [hsr] at hres
    simp [create_thumbnail] at hres
  · have hsrf : sr = false := by revert hsr; cases sr <;> simp
    rw [hsrf] at hres
    simp only [create_thumbnail, if_false, Option.some.injEq, Bool.false_eq_true,
      ite_false] at hres
    subst hres
    refine ⟨rfl, rfl, rfl, rfl, rfl, rfl, rfl, ?_, ?_, ?_, rfl, rfl⟩
    · simp [hdw, hdh, THUMBNAIL_SIZE]
    · simpa [hdw, hdh] using hb.1
    · simpa [hdw, hdh] using hb.2

theorem create_thumbnail_spec_witness :
    0 < (600 : Nat) ∧ 0 < (400 : Nat) ∧
    create_thumbnail (some ⟨"RGB", 600, 400⟩) false =
      some ⟨"RGB", 300, 300, (255, 255, 255), 0, 50, 300, 200, "RGB", "JPEG", 85, true⟩ ∧
    (⟨"RGB", 300, 300, (255, 255, 255), 0, 50, 300, 200, "RGB", "JPEG", 85,
      true⟩ : ThumbnailOutput).pastedWidth ≤ 300 :=
  ⟨by decide, by decide, by decide,
    (create_thumbnail_spec ⟨"RGB", 600, 400⟩ false
      ⟨"RGB", 300, 300, (255, 255, 255), 0, 50, 300, 200, "RGB", "JPEG", 85, true⟩
      (by decide) (by decide) (by decide)).2.2.2.2.2.2.2.2.1⟩

/-! ## src/app.py: the gallery lister (`index`)

The upload store is a list of (name, creation time) pairs in directory
enumeration order. The code formats each creation time as `'%Y-%m-%d %H:%M'`
and sorts the entries by that string, descending (`reverse=True`, Python's
stable sort); for dates with four-digit years, comparing those strings is
comparing the times truncated to whole minutes, so the sort key is modelled
as `ctime / 60` and the stable sort as insertion sort by that key (any two
stable sorts under the same total key agree). `ctime` is carried along
unformatted to state properties about the underlying creation times. -/

structure StoredFile where
  name : String
  ctime : Nat
deriving DecidableEq

structure GalleryEntry where
  name : String
  ftype : String
  upload_time : Nat
  ctime : Nat
  has_thumbnail : Bool
  thumbnail_name : Option String
deriving DecidableEq

/-- The `file_info` dictionary built for one stored file (app.py lines
310-328). The `getD "unknown"` default is unreachable: `index` only builds an
entry when `allowed_file` accepted the name, which guarantees the dot
`get_file_type` needs. -/
def mkGalleryEntry (f : StoredFile) (thumbs : List String) : GalleryEntry :=
  let file_type := (get_file_type f.name).getD "unknown"
  { name := f.name
    ftype := file_type
    upload_time := f.ctime / 60
    ctime := f.ctime
    has_thumbnail :=
      if file_type = "image" then thumbs.contains (thumbnailName f.name) else false
    thumbnail_name :=
      if file_type = "image" then some (thumbnailName f.name) else none }

/-- The sort order of `files.sort(key=..., reverse=True)`: descending in the
minute-resolution display time. -/
def galleryOrder (a b : GalleryEntry) : Prop :=
  b.upload_time ≤ a.upload_time

instance : DecidableRel galleryOrder :=
  fun a b => Nat.decLe b.upload_time a.upload_time

instance : IsTotal GalleryEntry galleryOrder :=
  ⟨fun a b => Nat.le_total b.upload_time a.upload_time⟩

instance : IsTrans GalleryEntry galleryOrder :=
  ⟨fun _ _ _ hab hbc => le_trans hbc hab⟩

/-- `index` (app.py line 305): keep the allowed names in enumeration order,
build their entries, sort stably by display time descending. -/
def galleryIndex (uploads : List StoredFile) (thumbs : List String) : List GalleryEntry :=
  List.insertionSort galleryOrder
    ((uploads.filter (fun f => allowed_file f.name)).map (fun f => mkGalleryEntry f thumbs))

/-- C9: the gallery is not sorted by creation time — two files created in the
same minute (61s and 90s after the epoch) keep enumeration order, so the
older file precedes the newer one. -/
theorem gallery_ctime_order_counterexample :
    ¬ List.Pairwise (fun a b : GalleryEntry => b.ctime ≤ a.ctime)
      (galleryIndex [⟨"a.png", 61⟩, ⟨"b.png", 90⟩] []) := by decide

/-- C9 (amended): the gallery holds exactly the stored files with an allowed
extension, each tagged with its media kind and thumbnail existence, and is
sorted descending by the minute-truncated creation time the page displays
(ties keep enumeration order; the exact creation times are not compared). -/
theorem gallery_index_amended (uploads : List StoredFile) (thumbs : List String) :
    (galleryIndex uploads thumbs).Perm
      ((uploads.filter (fun f => allowed_file f.name)).map
        (fun f => mkGalleryEntry f thumbs))
    ∧ List.Pairwise (fun a b => b.upload_time ≤ a.upload_time)
        (galleryIndex uploads thumbs) := by
  constructor
  · exact List.perm_insertionSort galleryOrder _
  · exact List.sorted_insertionSort galleryOrder _
